import Mathlib

/-!
Verification of the mandatendatabank-consumer ingestion engine.

This file gives a shallow embedding, in Lean, of the core of the
change-data-capture consumer service: the batched statement writer
(`insertTriples` / `deleteTriples` in `lib/delta-file.js` and
`lib/dump-file.js`), the delta-file consumption pipeline
(`DeltaFile.consume` / `DeltaFile.ingest`), the `SyncTask` state machine
(`execute`, `consumeNext`, `updateProgressStatus`, `persistLatestDelta`,
`persistStatus`, `closeWithFailure`), the `POST /ingest` handler of
`app.js`, and the initial-sync job driver (`runInitialSync`,
`InitialSyncTask`, `getLatestDumpFile`).

Store writes and other persisted side effects are embedded as explicit
action traces; asynchronous success/failure of external I/O (downloads,
per-file ingestion, store updates) is supplied through boolean oracles.
Timestamps are the millisecond integers produced by JavaScript
`Date.parse`.
-/

namespace MandatenConsumer

/-! ## Statement writer (`insertTriples` / `deleteTriples`)

The JS loop is `for (let i = 0; i < triples.length; i += BATCH_SIZE)`,
issuing one `update(...)` per iteration with `triples.slice(i, i + BATCH_SIZE)`.
With `BATCH_SIZE ≥ 1` the loop runs at most `triples.length` iterations, so we
model it by structural recursion on that iteration bound: each iteration takes
the first `B` elements and recurses on the rest. -/

/-- One pass of the batching loop: `fuel` bounds the number of iterations
(the JS loop with step `B ≥ 1` performs at most `length` iterations). -/
def chunkGo {α : Type} (B : Nat) : Nat → List α → List (List α)
  | _, [] => []
  | 0, _ :: _ => []
  | fuel + 1, a :: l => (a :: l).take B :: chunkGo B fuel ((a :: l).drop B)

/-- The list of batches that `insertTriples` (delta-file writer) passes to
`update`, one `INSERT DATA` call per batch, in loop order. -/
def insertTriples {α : Type} (B : Nat) (triples : List α) : List (List α) :=
  chunkGo B triples.length triples

/-- The list of batches that `deleteTriples` passes to `update`, one
`DELETE DATA` call per batch; the batching loop is identical to
`insertTriples`. -/
def deleteTriples {α : Type} (B : Nat) (triples : List α) : List (List α) :=
  chunkGo B triples.length triples

theorem ceil_div_step (B n : Nat) (hB : 1 ≤ B) (hn : 1 ≤ n) :
    (n - B + B - 1) / B + 1 = (n + B - 1) / B := by
  have key : ∀ m : Nat, (m + B) / B = m / B + 1 := fun m => Nat.add_div_right m (by omega)
  have e1 : n + B - 1 = (n - 1) + B := by omega
  rcases le_or_lt n B with h | h
  · have e0 : n - B = 0 := by omega
    rw [e0, e1, key, Nat.div_eq_of_lt (show n - 1 < B by omega)]
    simp [Nat.div_eq_of_lt (show B - 1 < B by omega)]
  · have e2 : n - B + B - 1 = (n - B - 1) + B := by omega
    have e3 : n - 1 = (n - B - 1) + B := by omega
    rw [e2, key, e1, e3, key, key]

theorem chunkGo_spec {α : Type} (B : Nat) (hB : 1 ≤ B) :
    ∀ (fuel : Nat) (l : List α), l.length ≤ fuel →
      (chunkGo B fuel l).flatten = l ∧
      (∀ b ∈ chunkGo B fuel l, b.length ≤ B) ∧
      (chunkGo B fuel l).length = (l.length + B - 1) / B := by
  intro fuel
  induction fuel with
  | zero =>
    intro l hl
    have hl0 : l = [] := List.length_eq_zero.mp (by omega)
    subst hl0
    refine ⟨rfl, ?_, ?_⟩
    · intro b hb
      simp [chunkGo] at hb
    · simp [chunkGo, Nat.div_eq_of_lt (show B - 1 < B by omega)]
  | succ fuel ih =>
    intro l hl
    match l with
    | [] =>
      refine ⟨rfl, ?_, ?_⟩
      · intro b hb
        simp [chunkGo] at hb
      · simp [chunkGo, Nat.div_eq_of_lt (show B - 1 < B by omega)]
    | a :: t =>
      have hdrop : ((a :: t).drop B).length ≤ fuel := by
        rw [List.length_drop]
        simp only [List.length_cons] at hl ⊢
        omega
      obtain ⟨hj, hs, hc⟩ := ih ((a :: t).drop B) hdrop
      refine ⟨?_, ?_, ?_⟩
      · simp [chunkGo, hj, List.take_append_drop]
      · intro b hb
        simp only [chunkGo, List.mem_cons] at hb
        rcases hb with hb | hb
        · subst hb
          rw [List.length_take]
          omega
        · exact hs b hb
      · simp only [chunkGo, List.length_cons, hc, List.length_drop]
        have hn : 1 ≤ (a :: t).length := by simp
        have := ceil_div_step B (a :: t).length hB hn
        simp only [List.length_cons] at this ⊢
        omega

/-! ## Delta-file changeset application (`DeltaFile.ingest` write order)

`DeltaFile.ingest` parses the downloaded file into an ordered list of
changesets `{inserts, deletes}` and runs
`for ({inserts, deletes} of changeSets) { await insertTriples(inserts); await deleteTriples(deletes); }`.
We record the sequence of `update` calls it issues. -/

/-- One changeset of a delta file: a list of insert statements and a list of
delete statements. -/
structure ChangeSet (α : Type) where
  inserts : List α
  deletes : List α

/-- One store write call issued by the statement writer: an `INSERT DATA`
or a `DELETE DATA` carrying one batch of statements. -/
inductive WriteOp (α : Type)
  | insertData (batch : List α)
  | deleteData (batch : List α)
deriving DecidableEq

/-- The ordered sequence of write calls issued by the changeset loop of
`DeltaFile.ingest`: for each changeset, in file order, first all insert
batches, then all delete batches. -/
def ingestWrites {α : Type} (B : Nat) : List (ChangeSet α) → List (WriteOp α)
  | [] => []
  | cs :: rest =>
      (insertTriples B cs.inserts).map WriteOp.insertData
        ++ (deleteTriples B cs.deletes).map WriteOp.deleteData
        ++ ingestWrites B rest

theorem ingestWrites_eq_flatten {α : Type} (B : Nat) (css : List (ChangeSet α)) :
    ingestWrites B css
      = (css.map (fun cs =>
          (insertTriples B cs.inserts).map WriteOp.insertData
            ++ (deleteTriples B cs.deletes).map WriteOp.deleteData)).flatten := by
  induction css with
  | nil => rfl
  | cons cs rest ih => simp [ingestWrites, ih]

/-! ## SyncTask state machine (`lib/sync-task.js`)

Persisted store writes (`persistStatus`, `persistLatestDelta`) and the start
of each file consumption are recorded in a trace of `Action`s. A file's
consumption outcome (download plus ingest, reported through the
`onFinishCallback` of `DeltaFile.consume`) is supplied by a boolean oracle
indexed by the file's position in `files`. -/

/-- Persisted task status (`adms:status` URIs of `lib/sync-task.js`). -/
inductive TaskStatus
  | notStarted
  | ongoing
  | success
  | failed
deriving DecidableEq

/-- Transient in-process progress status of a `SyncTask`
(values `'notStarted' | 'progressing' | 'failed'`, never persisted). -/
inductive ProgressStatus
  | notStarted
  | progressing
  | failed
deriving DecidableEq

/-- A `RemoteDeltaFileDescriptor` (`DeltaFile` of `lib/delta-file.js`):
`created` is the millisecond value `Date.parse(data.attributes.created)`. -/
structure DeltaFile where
  id : String
  created : Int
  name : String
deriving DecidableEq

/-- One observable step of a `SyncTask` run: starting the consumption of the
file at index `idx`, persisting the `ext:deltaUntil` watermark, or persisting
the `adms:status` of the task. -/
inductive Action
  | consumeFile (idx : Nat) (file : DeltaFile)
  | persistLatestDelta (ms : Int)
  | persistStatus (s : TaskStatus)
deriving DecidableEq

/-- The `SyncTask` instance state: the constructor sets
`latestDeltaMs = Date.parse(since.toISOString())`, `files = []`,
`handledFiles = 0`, `progressStatus = 'notStarted'`. -/
structure SyncTask where
  uri : String
  since : Int
  created : Int
  status : TaskStatus
  latestDeltaMs : Int
  files : List DeltaFile
  handledFiles : Nat
  progressStatus : ProgressStatus

/-- `persistStatus`: set `this.status` and write it to the store
(the DELETE/INSERT pair on `adms:status`). -/
def SyncTask.persistStatus (st : SyncTask) (s : TaskStatus) : SyncTask × List Action :=
  ({ st with status := s }, [Action.persistStatus s])

/-- `persistLatestDelta`: set `this.latestDeltaMs = deltaMs` and write it to
the store (the DELETE/INSERT pair on `ext:deltaUntil`). -/
def SyncTask.persistLatestDelta (st : SyncTask) (deltaMs : Int) : SyncTask × List Action :=
  ({ st with latestDeltaMs := deltaMs }, [Action.persistLatestDelta deltaMs])

/-- `updateProgressStatus(file, isSuccess)`: the method reads and writes only
`this.progressStatus` and `this.latestDeltaMs`, so it is embedded on those two
fields; it returns the new progress status, the new watermark and the store
writes it performed. On success with progress not failed it sets
`progressStatus = 'progressing'` and persists `Date.parse(file.created)` when
it exceeds the current watermark; on failure it sets
`progressStatus = 'failed'`. -/
def updateProgressStatus (ps : ProgressStatus) (latestDeltaMs : Int)
    (file : DeltaFile) (isSuccess : Bool) : ProgressStatus × Int × List Action :=
  if isSuccess = true ∧ ps ≠ ProgressStatus.failed then
    if file.created > latestDeltaMs then
      (ProgressStatus.progressing, file.created, [Action.persistLatestDelta file.created])
    else
      (ProgressStatus.progressing, latestDeltaMs, [])
  else if isSuccess = false then
    (ProgressStatus.failed, latestDeltaMs, [])
  else
    (ps, latestDeltaMs, [])

/-- `consumeNext`: consume `this.files[this.handledFiles]`; in the completion
callback increment `handledFiles`, run `updateProgressStatus`, then either
recurse into the next file (progressing and files remain), persist status
`failed` (progress failed), or persist status `success`. The oracle gives the
`isSuccess` flag the pipeline passes to the callback for each file index. -/
def SyncTask.consumeNext (oracle : Nat → Bool) (st : SyncTask) : SyncTask × List Action :=
  if h : st.handledFiles < st.files.length then
    let file := st.files.get ⟨st.handledFiles, h⟩
    let u := updateProgressStatus st.progressStatus st.latestDeltaMs file (oracle st.handledFiles)
    if u.1 = ProgressStatus.progressing ∧ st.handledFiles + 1 < st.files.length then
      let r := SyncTask.consumeNext oracle
        { st with handledFiles := st.handledFiles + 1,
                  progressStatus := u.1, latestDeltaMs := u.2.1 }
      (r.1, Action.consumeFile st.handledFiles file :: (u.2.2 ++ r.2))
    else if u.1 = ProgressStatus.failed then
      let r := SyncTask.persistStatus
        { st with handledFiles := st.handledFiles + 1,
                  progressStatus := u.1, latestDeltaMs := u.2.1 }
        TaskStatus.failed
      (r.1, Action.consumeFile st.handledFiles file :: (u.2.2 ++ r.2))
    else
      let r := SyncTask.persistStatus
        { st with handledFiles := st.handledFiles + 1,
                  progressStatus := u.1, latestDeltaMs := u.2.1 }
        TaskStatus.success
      (r.1, Action.consumeFile st.handledFiles file :: (u.2.2 ++ r.2))
  else
    (st, [])
termination_by st.files.length - st.handledFiles
decreasing_by simp; omega

/-- `execute`: persist status ongoing; when `totalFiles` is non-zero consume
file 0, otherwise persist the unchanged watermark and status success. -/
def SyncTask.execute (oracle : Nat → Bool) (st : SyncTask) : SyncTask × List Action :=
  let p := SyncTask.persistStatus st TaskStatus.ongoing
  if p.1.files.length ≠ 0 then
    let r := SyncTask.consumeNext oracle p.1
    (r.1, p.2 ++ r.2)
  else
    let q := SyncTask.persistLatestDelta p.1 p.1.latestDeltaMs
    let r := SyncTask.persistStatus q.1 TaskStatus.success
    (r.1, p.2 ++ q.2 ++ r.2)

/-- `closeWithFailure`: persist the current `latestDeltaMs` unchanged, then
persist status failed. -/
def SyncTask.closeWithFailure (st : SyncTask) : SyncTask × List Action :=
  let p := SyncTask.persistLatestDelta st st.latestDeltaMs
  let r := SyncTask.persistStatus p.1 TaskStatus.failed
  (r.1, p.2 ++ r.2)

/-! ## The watermark invariant

`wmAfter` computes, along a trace, the timestamp of the most recent delta file
that has been completely and successfully applied (starting from the watermark
the task began with): consuming file `i` successfully raises it to
`max w created`, every other action leaves it unchanged. `WmOk` states that
every `ext:deltaUntil` value persisted along the trace equals that reference
watermark at the moment of the write. -/

/-- Reference watermark after one action: a successfully consumed file raises
it to its creation timestamp, all other actions leave it unchanged. -/
def wmNext (oracle : Nat → Bool) (w : Int) : Action → Int
  | Action.consumeFile i f => if oracle i then max w f.created else w
  | Action.persistLatestDelta _ => w
  | Action.persistStatus _ => w

/-- Reference watermark (creation timestamp of the most recent completely and
successfully applied delta file, or the initial watermark) after a trace. -/
def wmAfter (oracle : Nat → Bool) (w : Int) : List Action → Int
  | [] => w
  | a :: rest => wmAfter oracle (wmNext oracle w a) rest

/-- Every `ext:deltaUntil` write in the trace persists exactly the reference
watermark at that instant. -/
def WmOk (oracle : Nat → Bool) (w : Int) : List Action → Prop
  | [] => True
  | a :: rest =>
      (∀ v, a = Action.persistLatestDelta v → v = w) ∧ WmOk oracle (wmNext oracle w a) rest

theorem wmAfter_cons (oracle : Nat → Bool) (w : Int) (a : Action) (t : List Action) :
    wmAfter oracle w (a :: t) = wmAfter oracle (wmNext oracle w a) t := rfl

theorem wmAfter_append (oracle : Nat → Bool) (w : Int) (t1 t2 : List Action) :
    wmAfter oracle w (t1 ++ t2) = wmAfter oracle (wmAfter oracle w t1) t2 := by
  induction t1 generalizing w with
  | nil => rfl
  | cons a t ih => simp [wmAfter, ih]

theorem wmOk_cons_consume (oracle : Nat → Bool) (w : Int) (i : Nat) (f : DeltaFile)
    (t : List Action) :
    WmOk oracle w (Action.consumeFile i f :: t)
      ↔ WmOk oracle (if oracle i then max w f.created else w) t := by
  simp [WmOk, wmNext]

theorem wmOk_cons_persistW (oracle : Nat → Bool) (w v : Int) (t : List Action) :
    WmOk oracle w (Action.persistLatestDelta v :: t) ↔ v = w ∧ WmOk oracle w t := by
  simp [WmOk, wmNext]

theorem wmOk_cons_persistS (oracle : Nat → Bool) (w : Int) (s : TaskStatus)
    (t : List Action) :
    WmOk oracle w (Action.persistStatus s :: t) ↔ WmOk oracle w t := by
  simp [WmOk, wmNext]

theorem wmOk_append (oracle : Nat → Bool) (w : Int) (t1 t2 : List Action) :
    WmOk oracle w (t1 ++ t2) ↔ WmOk oracle w t1 ∧ WmOk oracle (wmAfter oracle w t1) t2 := by
  induction t1 generalizing w with
  | nil => simp [WmOk, wmAfter]
  | cons a t ih => simp [WmOk, wmAfter, ih, and_assoc]

theorem wmOk_persist_value (oracle : Nat → Bool) (w : Int) (t pre post : List Action)
    (v : Int) (hok : WmOk oracle w t)
    (ht : t = pre ++ Action.persistLatestDelta v :: post) :
    v = wmAfter oracle w pre := by
  subst ht
  have h2 := ((wmOk_append oracle w pre _).mp hok).2
  exact ((wmOk_cons_persistW oracle _ v post).mp h2).1

theorem consumeNext_wm (oracle : Nat → Bool) :
    ∀ (n : Nat) (st : SyncTask), st.files.length - st.handledFiles ≤ n →
      st.progressStatus ≠ ProgressStatus.failed →
      WmOk oracle st.latestDeltaMs (st.consumeNext oracle).2 ∧
      (st.consumeNext oracle).1.latestDeltaMs
        = wmAfter oracle st.latestDeltaMs (st.consumeNext oracle).2 := by
  intro n
  induction n with
  | zero =>
    intro st hle hps
    have h : ¬ st.handledFiles < st.files.length := by omega
    rw [SyncTask.consumeNext]
    simp [h, WmOk, wmAfter]
  | succ n ih =>
    intro st hle hps
    rw [SyncTask.consumeNext]
    by_cases h : st.handledFiles < st.files.length
    · rw [dif_pos h]
      by_cases hb : oracle st.handledFiles
      · by_cases hc : st.latestDeltaMs < st.files[st.handledFiles].created
        · have hmax : max st.latestDeltaMs st.files[st.handledFiles].created
              = st.files[st.handledFiles].created := max_eq_right (le_of_lt hc)
          by_cases hcont : st.handledFiles + 1 < st.files.length
          · -- success with a watermark bump, more files remain
            obtain ⟨hok, heq⟩ := ih
              { st with handledFiles := st.handledFiles + 1,
                        progressStatus := ProgressStatus.progressing,
                        latestDeltaMs := st.files[st.handledFiles].created }
              (by simp; omega) (by simp)
            simp [updateProgressStatus, hb, hps, hc, hcont, wmOk_cons_consume,
              wmOk_cons_persistW, wmOk_cons_persistS, wmAfter_cons, wmNext, hmax]
            exact ⟨hok, heq⟩
          · -- success with a watermark bump, last file
            simp [updateProgressStatus, hb, hps, hc, hcont, SyncTask.persistStatus,
              wmOk_cons_consume, wmOk_cons_persistW, wmOk_cons_persistS,
              wmAfter_cons, wmAfter, wmNext, hmax, WmOk]
        · have hmax : max st.latestDeltaMs st.files[st.handledFiles].created
              = st.latestDeltaMs := max_eq_left (by omega)
          by_cases hcont : st.handledFiles + 1 < st.files.length
          · -- success without a watermark bump, more files remain
            obtain ⟨hok, heq⟩ := ih
              { st with handledFiles := st.handledFiles + 1,
                        progressStatus := ProgressStatus.progressing,
                        latestDeltaMs := st.latestDeltaMs }
              (by simp; omega) (by simp)
            simp [updateProgressStatus, hb, hps, hc, hcont, wmOk_cons_consume,
              wmOk_cons_persistW, wmOk_cons_persistS, wmAfter_cons, wmNext, hmax]
            exact ⟨hok, heq⟩
          · -- success without a watermark bump, last file
            simp [updateProgressStatus, hb, hps, hc, hcont, SyncTask.persistStatus,
              wmOk_cons_consume, wmOk_cons_persistW, wmOk_cons_persistS,
              wmAfter_cons, wmAfter, wmNext, hmax, WmOk]
      · -- failure: updateProgressStatus sets progress failed, task persists failed
        simp [updateProgressStatus, hb, SyncTask.persistStatus, wmOk_cons_consume,
          wmOk_cons_persistS, wmAfter_cons, wmAfter, wmNext, WmOk]
    · simp [h, WmOk, wmAfter]

theorem execute_wm (oracle : Nat → Bool) (st : SyncTask)
    (hps : st.progressStatus ≠ ProgressStatus.failed) :
    WmOk oracle st.latestDeltaMs (st.execute oracle).2 ∧
    (st.execute oracle).1.latestDeltaMs
      = wmAfter oracle st.latestDeltaMs (st.execute oracle).2 := by
  obtain ⟨hok, heq⟩ := consumeNext_wm oracle st.files.length
    { st with status := TaskStatus.ongoing } (by simp) hps
  by_cases hf : st.files.length = 0
  · simp [SyncTask.execute, SyncTask.persistStatus, SyncTask.persistLatestDelta, hf,
      wmOk_cons_persistS, wmOk_cons_persistW, wmAfter_cons, wmAfter, wmNext, WmOk]
  · simp [SyncTask.execute, SyncTask.persistStatus, hf, wmOk_cons_persistS,
      wmAfter_cons, wmNext]
    exact ⟨hok, heq⟩

/-- C1: along any `SyncTask` run — including a final `closeWithFailure` after
the run, the path taken both by a failed task and by the ingest handler —
every persisted `ext:deltaUntil` value equals the creation timestamp of the
most recent delta file that was completely and successfully applied at that
instant (or the watermark the task started from, when no newer file has been
applied): `updateProgressStatus` on a failed file, `closeWithFailure`, and the
empty-file success path never persist the timestamp of a file that was not
fully applied. -/
theorem watermark_reflects_applied_files (oracle : Nat → Bool) (st : SyncTask)
    (hps : st.progressStatus ≠ ProgressStatus.failed) :
    WmOk oracle st.latestDeltaMs
      ((st.execute oracle).2 ++ (SyncTask.closeWithFailure (st.execute oracle).1).2) ∧
    ∀ (pre post : List Action) (v : Int),
      (st.execute oracle).2 ++ (SyncTask.closeWithFailure (st.execute oracle).1).2
        = pre ++ Action.persistLatestDelta v :: post →
      v = wmAfter oracle st.latestDeltaMs pre := by
  obtain ⟨hok, heq⟩ := execute_wm oracle st hps
  have hcl : WmOk oracle (wmAfter oracle st.latestDeltaMs (st.execute oracle).2)
      (SyncTask.closeWithFailure (st.execute oracle).1).2 := by
    rw [← heq]
    simp [SyncTask.closeWithFailure, SyncTask.persistLatestDelta, SyncTask.persistStatus,
      wmOk_cons_persistW, wmOk_cons_persistS, WmOk]
  have hall : WmOk oracle st.latestDeltaMs
      ((st.execute oracle).2 ++ (SyncTask.closeWithFailure (st.execute oracle).1).2) :=
    (wmOk_append oracle st.latestDeltaMs _ _).mpr ⟨hok, hcl⟩
  refine ⟨hall, ?_⟩
  intro pre post v hdecomp
  exact wmOk_persist_value oracle st.latestDeltaMs _ pre post v hall hdecomp

/-- Witness for C1 at a concrete task (one pending file, all consumptions
succeeding). -/
theorem watermark_reflects_applied_files_witness :
    (SyncTask.mk "task" 0 0 TaskStatus.notStarted 0 [DeltaFile.mk "f" 5 "fn"] 0
        ProgressStatus.notStarted).progressStatus ≠ ProgressStatus.failed ∧
    (WmOk (fun _ => true)
      (SyncTask.mk "task" 0 0 TaskStatus.notStarted 0 [DeltaFile.mk "f" 5 "fn"] 0
        ProgressStatus.notStarted).latestDeltaMs
      ((SyncTask.execute (fun _ => true)
          (SyncTask.mk "task" 0 0 TaskStatus.notStarted 0 [DeltaFile.mk "f" 5 "fn"] 0
            ProgressStatus.notStarted)).2
        ++ (SyncTask.closeWithFailure
            (SyncTask.execute (fun _ => true)
              (SyncTask.mk "task" 0 0 TaskStatus.notStarted 0 [DeltaFile.mk "f" 5 "fn"] 0
                ProgressStatus.notStarted)).1).2) ∧
    ∀ (pre post : List Action) (v : Int),
      (SyncTask.execute (fun _ => true)
          (SyncTask.mk "task" 0 0 TaskStatus.notStarted 0 [DeltaFile.mk "f" 5 "fn"] 0
            ProgressStatus.notStarted)).2
        ++ (SyncTask.closeWithFailure
            (SyncTask.execute (fun _ => true)
              (SyncTask.mk "task" 0 0 TaskStatus.notStarted 0 [DeltaFile.mk "f" 5 "fn"] 0
                ProgressStatus.notStarted)).1).2
        = pre ++ Action.persistLatestDelta v :: post →
      v = wmAfter (fun _ => true)
          (SyncTask.mk "task" 0 0 TaskStatus.notStarted 0 [DeltaFile.mk "f" 5 "fn"] 0
            ProgressStatus.notStarted).latestDeltaMs pre) :=
  ⟨by decide,
    watermark_reflects_applied_files (fun _ => true)
      (SyncTask.mk "task" 0 0 TaskStatus.notStarted 0 [DeltaFile.mk "f" 5 "fn"] 0
        ProgressStatus.notStarted) (by decide)⟩

/-- C2: with pending files `[f1, f2, f3]` where applying `f2` fails and the
others would succeed (oracle is false exactly at index 1), the run persists
status ongoing, consumes `f1`, persists `f1`'s creation timestamp as the
watermark, consumes `f2`, and then persists status failed; the final state has
status failed and watermark `f1.created`, and `f3` (index 2) is never
consumed. The hypothesis `since < f1.created` reflects that pending files are
the ones created after the task's starting watermark. -/
theorem partial_failure_halt (uri : String) (since createdAt : Int)
    (f1 f2 f3 : DeltaFile) (h1 : since < f1.created) :
    (SyncTask.execute (fun i => !(i == 1))
        (SyncTask.mk uri since createdAt TaskStatus.notStarted since [f1, f2, f3] 0
          ProgressStatus.notStarted)).2
      = [Action.persistStatus TaskStatus.ongoing,
         Action.consumeFile 0 f1,
         Action.persistLatestDelta f1.created,
         Action.consumeFile 1 f2,
         Action.persistStatus TaskStatus.failed] ∧
    (SyncTask.execute (fun i => !(i == 1))
        (SyncTask.mk uri since createdAt TaskStatus.notStarted since [f1, f2, f3] 0
          ProgressStatus.notStarted)).1.status = TaskStatus.failed ∧
    (SyncTask.execute (fun i => !(i == 1))
        (SyncTask.mk uri since createdAt TaskStatus.notStarted since [f1, f2, f3] 0
          ProgressStatus.notStarted)).1.latestDeltaMs = f1.created ∧
    ∀ f : DeltaFile,
      Action.consumeFile 2 f ∉
        (SyncTask.execute (fun i => !(i == 1))
            (SyncTask.mk uri since createdAt TaskStatus.notStarted since [f1, f2, f3] 0
              ProgressStatus.notStarted)).2 := by
  rw [SyncTask.execute]
  simp only [SyncTask.persistStatus]
  rw [SyncTask.consumeNext]
  simp only [List.length_cons, List.length_nil]
  rw [dif_pos (by omega)]
  rw [SyncTask.consumeNext]
  simp [updateProgressStatus, SyncTask.persistStatus, h1]

/-- Witness for C2 with concrete files created at 1, 2, 3 and starting
watermark 0. -/
theorem partial_failure_halt_witness :
    (0 : Int) < 1 ∧
    ((SyncTask.execute (fun i => !(i == 1))
        (SyncTask.mk "t" 0 0 TaskStatus.notStarted 0
          [DeltaFile.mk "f1" 1 "a", DeltaFile.mk "f2" 2 "b", DeltaFile.mk "f3" 3 "c"] 0
          ProgressStatus.notStarted)).2
      = [Action.persistStatus TaskStatus.ongoing,
         Action.consumeFile 0 (DeltaFile.mk "f1" 1 "a"),
         Action.persistLatestDelta 1,
         Action.consumeFile 1 (DeltaFile.mk "f2" 2 "b"),
         Action.persistStatus TaskStatus.failed] ∧
    (SyncTask.execute (fun i => !(i == 1))
        (SyncTask.mk "t" 0 0 TaskStatus.notStarted 0
          [DeltaFile.mk "f1" 1 "a", DeltaFile.mk "f2" 2 "b", DeltaFile.mk "f3" 3 "c"] 0
          ProgressStatus.notStarted)).1.status = TaskStatus.failed ∧
    (SyncTask.execute (fun i => !(i == 1))
        (SyncTask.mk "t" 0 0 TaskStatus.notStarted 0
          [DeltaFile.mk "f1" 1 "a", DeltaFile.mk "f2" 2 "b", DeltaFile.mk "f3" 3 "c"] 0
          ProgressStatus.notStarted)).1.latestDeltaMs = 1 ∧
    ∀ f : DeltaFile,
      Action.consumeFile 2 f ∉
        (SyncTask.execute (fun i => !(i == 1))
            (SyncTask.mk "t" 0 0 TaskStatus.notStarted 0
              [DeltaFile.mk "f1" 1 "a", DeltaFile.mk "f2" 2 "b", DeltaFile.mk "f3" 3 "c"] 0
              ProgressStatus.notStarted)).2) :=
  ⟨by decide,
    partial_failure_halt "t" 0 0 (DeltaFile.mk "f1" 1 "a") (DeltaFile.mk "f2" 2 "b")
      (DeltaFile.mk "f3" 3 "c") (by decide)⟩

/-- C8: a task executed with an empty pending-files list persists status
ongoing, then persists its watermark unchanged, then persists status
success, without consuming any file. -/
theorem empty_files_success (oracle : Nat → Bool) (st : SyncTask)
    (hf : st.files = []) :
    (st.execute oracle).2
      = [Action.persistStatus TaskStatus.ongoing,
         Action.persistLatestDelta st.latestDeltaMs,
         Action.persistStatus TaskStatus.success] ∧
    (st.execute oracle).1.latestDeltaMs = st.latestDeltaMs ∧
    (st.execute oracle).1.status = TaskStatus.success ∧
    ∀ (i : Nat) (f : DeltaFile), Action.consumeFile i f ∉ (st.execute oracle).2 := by
  simp [SyncTask.execute, SyncTask.persistStatus, SyncTask.persistLatestDelta, hf]

/-- Witness for C8 with a concrete task whose pending-files list is empty. -/
theorem empty_files_success_witness :
    (SyncTask.mk "t" 7 0 TaskStatus.notStarted 7 [] 0
        ProgressStatus.notStarted).files = ([] : List DeltaFile) ∧
    ((SyncTask.execute (fun _ => true)
        (SyncTask.mk "t" 7 0 TaskStatus.notStarted 7 [] 0 ProgressStatus.notStarted)).2
      = [Action.persistStatus TaskStatus.ongoing,
         Action.persistLatestDelta 7,
         Action.persistStatus TaskStatus.success] ∧
    (SyncTask.execute (fun _ => true)
        (SyncTask.mk "t" 7 0 TaskStatus.notStarted 7 [] 0
          ProgressStatus.notStarted)).1.latestDeltaMs = 7 ∧
    (SyncTask.execute (fun _ => true)
        (SyncTask.mk "t" 7 0 TaskStatus.notStarted 7 [] 0
          ProgressStatus.notStarted)).1.status = TaskStatus.success ∧
    ∀ (i : Nat) (f : DeltaFile),
      Action.consumeFile i f ∉
        (SyncTask.execute (fun _ => true)
            (SyncTask.mk "t" 7 0 TaskStatus.notStarted 7 [] 0
              ProgressStatus.notStarted)).2) :=
  ⟨rfl,
    empty_files_success (fun _ => true)
      (SyncTask.mk "t" 7 0 TaskStatus.notStarted 7 [] 0 ProgressStatus.notStarted) rfl⟩

/-! ## Consumption order (C4) -/

/-- Projection of a trace action onto the consumed file, if any. -/
def consumedFile : Action → Option DeltaFile
  | Action.consumeFile _ f => some f
  | Action.persistLatestDelta _ => none
  | Action.persistStatus _ => none

theorem consumedFile_update (ps : ProgressStatus) (w : Int) (f : DeltaFile) (b : Bool) :
    ((updateProgressStatus ps w f b).2.2).filterMap consumedFile = [] := by
  unfold updateProgressStatus
  split
  · split <;> simp [consumedFile]
  · split <;> simp

theorem consumeNext_consumed (oracle : Nat → Bool) :
    ∀ (n : Nat) (st : SyncTask), st.files.length - st.handledFiles ≤ n →
      ∃ m, m ≤ st.files.length - st.handledFiles ∧
        (st.consumeNext oracle).2.filterMap consumedFile
          = (st.files.drop st.handledFiles).take m := by
  intro n
  induction n with
  | zero =>
    intro st hle
    refine ⟨0, by omega, ?_⟩
    have h : ¬ st.handledFiles < st.files.length := by omega
    rw [SyncTask.consumeNext]
    simp [h]
  | succ n ih =>
    intro st hle
    rw [SyncTask.consumeNext]
    by_cases h : st.handledFiles < st.files.length
    · rw [dif_pos h]
      have hdrop : st.files.drop st.handledFiles
          = st.files[st.handledFiles] :: st.files.drop (st.handledFiles + 1) :=
        List.drop_eq_getElem_cons h
      by_cases hrec :
          (updateProgressStatus st.progressStatus st.latestDeltaMs
              (st.files.get ⟨st.handledFiles, h⟩) (oracle st.handledFiles)).1
            = ProgressStatus.progressing ∧ st.handledFiles + 1 < st.files.length
      · rw [if_pos hrec]
        obtain ⟨m, hm, hfm⟩ := ih
          { st with handledFiles := st.handledFiles + 1,
                    progressStatus :=
                      (updateProgressStatus st.progressStatus st.latestDeltaMs
                        (st.files.get ⟨st.handledFiles, h⟩) (oracle st.handledFiles)).1,
                    latestDeltaMs :=
                      (updateProgressStatus st.progressStatus st.latestDeltaMs
                        (st.files.get ⟨st.handledFiles, h⟩) (oracle st.handledFiles)).2.1 }
          (by simp; omega)
        refine ⟨m + 1, ?_, ?_⟩
        · simp at hm
          omega
        · simp only [List.filterMap_cons, List.filterMap_append, consumedFile,
            consumedFile_update, List.nil_append, List.get_eq_getElem] at hfm ⊢
          simp only [hfm, hdrop, List.take_succ_cons]
      · rw [if_neg hrec]
        refine ⟨1, by omega, ?_⟩
        have htake : (st.files.drop st.handledFiles).take 1 = [st.files[st.handledFiles]] := by
          rw [hdrop, List.take_succ_cons, List.take_zero]
        rw [htake]
        by_cases hfail :
            (updateProgressStatus st.progressStatus st.latestDeltaMs
                (st.files.get ⟨st.handledFiles, h⟩) (oracle st.handledFiles)).1
              = ProgressStatus.failed
        · rw [if_pos hfail]
          simp only [SyncTask.persistStatus, List.filterMap_cons, List.filterMap_append,
            consumedFile, consumedFile_update, List.nil_append, List.filterMap_nil,
            List.get_eq_getElem]
        · rw [if_neg hfail]
          simp only [SyncTask.persistStatus, List.filterMap_cons, List.filterMap_append,
            consumedFile, consumedFile_update, List.nil_append, List.filterMap_nil,
            List.get_eq_getElem]
    · rw [dif_neg h]
      exact ⟨0, by omega, by simp⟩

/-- C4: under the producer contract that the fetched `pendingFiles` list is
sorted ascending by creation timestamp, a task started on it (fresh state:
`handledFiles = 0`) consumes exactly an initial segment of `files`, in list
order — file `i` completes before file `i + 1` starts, since the trace is
sequential — and therefore in ascending creation order. -/
theorem files_consumed_in_ascending_order (oracle : Nat → Bool) (st : SyncTask)
    (h0 : st.handledFiles = 0)
    (hsorted : st.files.Pairwise (fun a b => a.created ≤ b.created)) :
    ∃ m, m ≤ st.files.length ∧
      (st.execute oracle).2.filterMap consumedFile = st.files.take m ∧
      ((st.execute oracle).2.filterMap consumedFile).Pairwise
        (fun a b => a.created ≤ b.created) := by
  have hmain : ∃ m, m ≤ st.files.length - st.handledFiles ∧
      (st.execute oracle).2.filterMap consumedFile
        = (st.files.drop st.handledFiles).take m := by
    by_cases hf : st.files.length = 0
    · refine ⟨0, by omega, ?_⟩
      simp [SyncTask.execute, SyncTask.persistStatus, SyncTask.persistLatestDelta,
        List.length_eq_zero.mp hf, consumedFile]
    · obtain ⟨m, hm, hfm⟩ := consumeNext_consumed oracle
        ({ st with status := TaskStatus.ongoing }).files.length
        { st with status := TaskStatus.ongoing } (by simp)
      refine ⟨m, by simpa using hm, ?_⟩
      simp only [SyncTask.execute, SyncTask.persistStatus]
      rw [if_pos (show ({ st with status := TaskStatus.ongoing } : SyncTask).files.length ≠ 0
        from hf)]
      simpa [List.filterMap_cons, consumedFile] using hfm
  obtain ⟨m, hm, hfm⟩ := hmain
  rw [h0] at hm hfm
  rw [List.drop_zero] at hfm
  refine ⟨m, by omega, hfm, ?_⟩
  rw [hfm]
  exact hsorted.sublist (List.take_sublist m st.files)

/-- Witness for C4 at a concrete two-file task with ascending creation
timestamps. -/
theorem files_consumed_in_ascending_order_witness :
    (SyncTask.mk "t" 0 0 TaskStatus.notStarted 0
        [DeltaFile.mk "a" 1 "a", DeltaFile.mk "b" 2 "b"] 0
        ProgressStatus.notStarted).handledFiles = 0 ∧
    (SyncTask.mk "t" 0 0 TaskStatus.notStarted 0
        [DeltaFile.mk "a" 1 "a", DeltaFile.mk "b" 2 "b"] 0
        ProgressStatus.notStarted).files.Pairwise (fun a b => a.created ≤ b.created) ∧
    ∃ m, m ≤ (SyncTask.mk "t" 0 0 TaskStatus.notStarted 0
        [DeltaFile.mk "a" 1 "a", DeltaFile.mk "b" 2 "b"] 0
        ProgressStatus.notStarted).files.length ∧
      ((SyncTask.execute (fun _ => true)
          (SyncTask.mk "t" 0 0 TaskStatus.notStarted 0
            [DeltaFile.mk "a" 1 "a", DeltaFile.mk "b" 2 "b"] 0
            ProgressStatus.notStarted)).2.filterMap consumedFile)
        = (SyncTask.mk "t" 0 0 TaskStatus.notStarted 0
            [DeltaFile.mk "a" 1 "a", DeltaFile.mk "b" 2 "b"] 0
            ProgressStatus.notStarted).files.take m ∧
      ((SyncTask.execute (fun _ => true)
          (SyncTask.mk "t" 0 0 TaskStatus.notStarted 0
            [DeltaFile.mk "a" 1 "a", DeltaFile.mk "b" 2 "b"] 0
            ProgressStatus.notStarted)).2.filterMap consumedFile).Pairwise
        (fun a b => a.created ≤ b.created) :=
  ⟨rfl, by simp,
    files_consumed_in_ascending_order (fun _ => true)
      (SyncTask.mk "t" 0 0 TaskStatus.notStarted 0
        [DeltaFile.mk "a" 1 "a", DeltaFile.mk "b" 2 "b"] 0
        ProgressStatus.notStarted) rfl (by simp)⟩

/-- C3: for `N` statements and batch size `B ≥ 1`, one `insertTriples` or
`deleteTriples` call issues exactly `⌈N/B⌉` sequential write calls, each
carrying at most `B` statements in the original order, the concatenation of
all batches is the input sequence, and the two writers batch identically. -/
theorem statement_writer_batching {α : Type} (B : Nat) (hB : 1 ≤ B)
    (triples : List α) :
    (insertTriples B triples).length = (triples.length + B - 1) / B ∧
    (∀ b ∈ insertTriples B triples, b.length ≤ B) ∧
    (insertTriples B triples).flatten = triples ∧
    deleteTriples B triples = insertTriples B triples := by
  obtain ⟨hj, hs, hc⟩ := chunkGo_spec B hB triples.length triples le_rfl
  exact ⟨hc, hs, hj, rfl⟩

/-- Witness for C3: five statements with batch size two yield three writes. -/
theorem statement_writer_batching_witness :
    1 ≤ 2 ∧
    ((insertTriples 2 [1, 2, 3, 4, 5]).length = (5 + 2 - 1) / 2 ∧
     (∀ b ∈ insertTriples 2 [1, 2, 3, 4, 5], b.length ≤ 2) ∧
     (insertTriples 2 [1, 2, 3, 4, 5]).flatten = [1, 2, 3, 4, 5] ∧
     deleteTriples 2 [1, 2, 3, 4, 5] = insertTriples 2 [1, 2, 3, 4, 5]) :=
  ⟨by decide, statement_writer_batching 2 (by decide) [1, 2, 3, 4, 5]⟩

/-- C9: the write sequence emitted for a parsed delta file is the
concatenation, in file order, of one contiguous segment per changeset, each
segment being that changeset's insert batches followed by its delete batches —
hence every insert write of changeset `i` precedes every delete write of
changeset `i`, and all writes of changeset `i` precede all writes of changeset
`i + 1`; each changeset's insert (resp. delete) batches concatenate back to
exactly its inserts (resp. deletes). -/
theorem changesets_applied_in_order {α : Type} (B : Nat) (hB : 1 ≤ B)
    (css : List (ChangeSet α)) :
    ingestWrites B css
      = (css.map (fun cs =>
          (insertTriples B cs.inserts).map WriteOp.insertData
            ++ (deleteTriples B cs.deletes).map WriteOp.deleteData)).flatten ∧
    ∀ cs ∈ css, (insertTriples B cs.inserts).flatten = cs.inserts ∧
      (deleteTriples B cs.deletes).flatten = cs.deletes := by
  refine ⟨ingestWrites_eq_flatten B css, ?_⟩
  intro cs _
  exact ⟨(chunkGo_spec B hB _ _ le_rfl).1, (chunkGo_spec B hB _ _ le_rfl).1⟩

/-- Witness for C9 at two concrete changesets and batch size two. -/
theorem changesets_applied_in_order_witness :
    1 ≤ 2 ∧
    (ingestWrites 2 [ChangeSet.mk [1, 2, 3] [4], ChangeSet.mk [5] []]
      = ([ChangeSet.mk [1, 2, 3] [4], ChangeSet.mk [5] []].map (fun cs =>
          (insertTriples 2 cs.inserts).map WriteOp.insertData
            ++ (deleteTriples 2 cs.deletes).map WriteOp.deleteData)).flatten ∧
    ∀ cs ∈ [ChangeSet.mk [1, 2, 3] [4], ChangeSet.mk [5] []],
      (insertTriples 2 cs.inserts).flatten = cs.inserts ∧
      (deleteTriples 2 cs.deletes).flatten = cs.deletes) :=
  ⟨by decide,
    changesets_applied_in_order 2 (by decide)
      [ChangeSet.mk [1, 2, 3] [4], ChangeSet.mk [5] []]⟩

/-! ## The `POST /ingest` handler (`app.js`)

The handler runs against the persisted task records; the store is embedded as
the list of sync-task records, and the external outcomes (`scheduleSyncTask`'s
insert taking effect, `getUnconsumedFiles` succeeding) as booleans. -/

/-- HTTP outcome of the `POST /ingest` handler: 202 (`accepted`, a task was
started), 200 (`okNoTask`, no scheduled task found), 409 (`conflict`, a task
is already ongoing), or the error forwarded to `next(...)` when fetching the
unconsumed files throws. -/
inductive IngestResponse
  | accepted
  | okNoTask
  | conflict
  | errorOut
deriving DecidableEq

/-- A persisted sync-task record as seen by the handler's store queries. -/
structure StoredTask where
  uri : String
  status : TaskStatus
  created : Int
deriving DecidableEq

/-- Does some persisted task carry the given status (the `SELECT ... LIMIT 1`
of `getRunningSyncTask` and of the guard in `scheduleSyncTask`). -/
def hasTaskWithStatus (store : List StoredTask) (s : TaskStatus) : Bool :=
  store.any (fun t => decide (t.status = s))

/-- `scheduleSyncTask`: insert a fresh not-started task unless one is already
scheduled; `insertOk` models whether the store write takes effect (the handler
itself asks "Did the insertion of a new task just fail?"). -/
def scheduleSyncTask (store : List StoredTask) (newTask : StoredTask)
    (insertOk : Bool) : List StoredTask :=
  if hasTaskWithStatus store TaskStatus.notStarted then store
  else if insertOk then store ++ [{ newTask with status := TaskStatus.notStarted }]
  else store

/-- `getNextSyncTask`: the not-started task with the earliest creation date
(`ORDER BY ?created LIMIT 1`). -/
def getNextSyncTask (store : List StoredTask) : Option StoredTask :=
  (store.filter (fun t => decide (t.status = TaskStatus.notStarted))).argmin
    (fun t => t.created)

/-- A persisted status update on the task record identified by `uri`. -/
def setTaskStatus (store : List StoredTask) (uri : String) (s : TaskStatus) :
    List StoredTask :=
  store.map (fun t => if t.uri = uri then { t with status := s } else t)

/-- The `POST /ingest` handler: schedule a task if none is scheduled; answer
409 when a task is ongoing; otherwise pick the next scheduled task and either
fetch its files and start `execute()` — whose first persisted write sets the
task ongoing — answering 202, or, when `getUnconsumedFiles` throws
(`filesOk = false`), run `closeWithFailure()` — persisting status failed — and
forward the error; answer 200 when no scheduled task is found. -/
def postIngest (store : List StoredTask) (newTask : StoredTask)
    (insertOk filesOk : Bool) : List StoredTask × IngestResponse :=
  let s1 := scheduleSyncTask store newTask insertOk
  if hasTaskWithStatus s1 TaskStatus.ongoing then
    (s1, IngestResponse.conflict)
  else
    match getNextSyncTask s1 with
    | some t =>
        if filesOk then
          (setTaskStatus s1 t.uri TaskStatus.ongoing, IngestResponse.accepted)
        else
          (setTaskStatus s1 t.uri TaskStatus.failed, IngestResponse.errorOut)
    | none => (s1, IngestResponse.okNoTask)

/-- Number of persisted tasks in status ongoing. -/
def countOngoing (store : List StoredTask) : Nat :=
  store.countP (fun t => decide (t.status = TaskStatus.ongoing))

theorem hasOngoing_schedule (store : List StoredTask) (newTask : StoredTask)
    (insertOk : Bool) :
    hasTaskWithStatus (scheduleSyncTask store newTask insertOk) TaskStatus.ongoing
      = hasTaskWithStatus store TaskStatus.ongoing := by
  unfold scheduleSyncTask
  split
  · rfl
  · split
    · simp [hasTaskWithStatus]
    · rfl

theorem countOngoing_schedule (store : List StoredTask) (newTask : StoredTask)
    (insertOk : Bool) :
    countOngoing (scheduleSyncTask store newTask insertOk) = countOngoing store := by
  unfold scheduleSyncTask countOngoing
  split
  · rfl
  · split
    · simp [List.countP_append, List.countP_cons]
    · rfl

theorem countOngoing_set_le (uri : String) (s' : TaskStatus) (s : List StoredTask)
    (hno : ∀ t ∈ s, t.status ≠ TaskStatus.ongoing) :
    countOngoing (setTaskStatus s uri s')
      ≤ s.countP (fun t => decide (t.uri = uri)) := by
  unfold countOngoing setTaskStatus
  rw [List.countP_map]
  apply List.countP_mono_left
  intro x hx hpx
  simp only [Function.comp_apply] at hpx
  by_cases hxu : x.uri = uri
  · simpa using hxu
  · rw [if_neg hxu] at hpx
    simp only [decide_eq_true_eq] at hpx
    exact absurd hpx (hno x hx)

theorem countP_uri_le_one :
    ∀ (s : List StoredTask), ((s.map fun t => t.uri).Nodup) →
      ∀ uri, s.countP (fun t => decide (t.uri = uri)) ≤ 1 := by
  intro s
  induction s with
  | nil => simp
  | cons t ts ih =>
    intro h uri
    simp only [List.map_cons, List.nodup_cons] at h
    rw [List.countP_cons]
    by_cases ht : t.uri = uri
    · have hzero : ts.countP (fun x => decide (x.uri = uri)) = 0 := by
        rw [List.countP_eq_zero]
        intro x hx
        simp only [decide_eq_true_eq]
        intro hxu
        exact h.1 (by rw [ht, ← hxu]; exact List.mem_map_of_mem _ hx)
      simp [hzero, ht]
    · have := ih h.2 uri
      simp [ht]
      omega

/-- C5: against a store holding at most one ongoing task, the `POST /ingest`
handler (a) answers 409 when a task is ongoing and leaves the number of
ongoing tasks unchanged — it does not start a second execution; (b) never
leaves more than one task ongoing, provided the persisted task URIs are
distinct; (c) answers 202 exactly when no task was ongoing, a scheduled task
was found and its files were fetched; (d) answers 200 when no task was ongoing
and no scheduled task was found. -/
theorem ingest_single_flight (store : List StoredTask) (newTask : StoredTask)
    (insertOk filesOk : Bool)
    (huris : (((scheduleSyncTask store newTask insertOk).map fun t => t.uri).Nodup))
    (hone : countOngoing store ≤ 1) :
    (hasTaskWithStatus store TaskStatus.ongoing = true →
      (postIngest store newTask insertOk filesOk).2 = IngestResponse.conflict ∧
      countOngoing (postIngest store newTask insertOk filesOk).1
        = countOngoing store) ∧
    countOngoing (postIngest store newTask insertOk filesOk).1 ≤ 1 ∧
    ((postIngest store newTask insertOk filesOk).2 = IngestResponse.accepted ↔
      hasTaskWithStatus store TaskStatus.ongoing = false ∧
      (∃ t, getNextSyncTask (scheduleSyncTask store newTask insertOk) = some t) ∧
      filesOk = true) ∧
    (hasTaskWithStatus store TaskStatus.ongoing = false ∧
      getNextSyncTask (scheduleSyncTask store newTask insertOk) = none →
      (postIngest store newTask insertOk filesOk).2 = IngestResponse.okNoTask) := by
  have hsch := hasOngoing_schedule store newTask insertOk
  have hcnt := countOngoing_schedule store newTask insertOk
  by_cases hrun : hasTaskWithStatus store TaskStatus.ongoing
  · have hcond : hasTaskWithStatus (scheduleSyncTask store newTask insertOk)
        TaskStatus.ongoing = true := by rw [hsch]; exact hrun
    have hres : postIngest store newTask insertOk filesOk
        = (scheduleSyncTask store newTask insertOk, IngestResponse.conflict) := by
      simp [postIngest, hcond]
    rw [hres]
    refine ⟨fun _ => ⟨rfl, hcnt⟩, by simp only []; omega, ?_, ?_⟩
    · constructor
      · intro hcontra
        cases hcontra
      · rintro ⟨hfalse, -, -⟩
        rw [hrun] at hfalse
        cases hfalse
    · rintro ⟨hfalse, -⟩
      rw [hrun] at hfalse
      cases hfalse
  · have hcond : hasTaskWithStatus (scheduleSyncTask store newTask insertOk)
        TaskStatus.ongoing = false := by rw [hsch]; simpa using hrun
    have hno : ∀ t ∈ scheduleSyncTask store newTask insertOk,
        t.status ≠ TaskStatus.ongoing := by
      intro t ht
      have := List.any_eq_false.mp hcond t ht
      simpa using this
    rcases hnext : getNextSyncTask (scheduleSyncTask store newTask insertOk)
      with _ | t
    · have hres : postIngest store newTask insertOk filesOk
          = (scheduleSyncTask store newTask insertOk, IngestResponse.okNoTask) := by
        simp [postIngest, hcond, hnext]
      rw [hres]
      refine ⟨fun hcontra => absurd hcontra (by simpa using hrun),
        by simp only []; omega, ?_, fun _ => rfl⟩
      constructor
      · intro hcontra
        cases hcontra
      · rintro ⟨-, ⟨t, hsome⟩, -⟩
        simp at hsome
    · have hle : countOngoing
          (setTaskStatus (scheduleSyncTask store newTask insertOk) t.uri
            TaskStatus.ongoing) ≤ 1 :=
        le_trans (countOngoing_set_le t.uri TaskStatus.ongoing _ hno)
          (countP_uri_le_one _ huris t.uri)
      have hle2 : countOngoing
          (setTaskStatus (scheduleSyncTask store newTask insertOk) t.uri
            TaskStatus.failed) ≤ 1 :=
        le_trans (countOngoing_set_le t.uri TaskStatus.failed _ hno)
          (countP_uri_le_one _ huris t.uri)
      by_cases hfk : filesOk
      · subst hfk
        have hres : postIngest store newTask insertOk true
            = (setTaskStatus (scheduleSyncTask store newTask insertOk) t.uri
                TaskStatus.ongoing, IngestResponse.accepted) := by
          simp [postIngest, hcond, hnext]
        rw [hres]
        refine ⟨fun hcontra => absurd hcontra (by simpa using hrun), hle, ?_, ?_⟩
        · exact ⟨fun _ => ⟨by simpa using hrun, ⟨t, rfl⟩, rfl⟩, fun _ => rfl⟩
        · rintro ⟨-, hnone⟩
          simp at hnone
      · have hfk2 : filesOk = false := by simpa using hfk
        subst hfk2
        have hres : postIngest store newTask insertOk false
            = (setTaskStatus (scheduleSyncTask store newTask insertOk) t.uri
                TaskStatus.failed, IngestResponse.errorOut) := by
          simp [postIngest, hcond, hnext]
        rw [hres]
        refine ⟨fun hcontra => absurd hcontra (by simpa using hrun), hle2, ?_, ?_⟩
        · constructor
          · intro hcontra
            cases hcontra
          · rintro ⟨-, -, hfalse⟩
            cases hfalse
        · rintro ⟨-, hnone⟩
          simp at hnone

/-- Witness for C5: a store with one ongoing task yields 409 and still exactly
one ongoing task. -/
theorem ingest_single_flight_witness :
    ((scheduleSyncTask [StoredTask.mk "a" TaskStatus.ongoing 0]
        (StoredTask.mk "b" TaskStatus.notStarted 1) true).map fun t => t.uri).Nodup ∧
    countOngoing [StoredTask.mk "a" TaskStatus.ongoing 0] ≤ 1 ∧
    ((hasTaskWithStatus [StoredTask.mk "a" TaskStatus.ongoing 0]
        TaskStatus.ongoing = true →
      (postIngest [StoredTask.mk "a" TaskStatus.ongoing 0]
          (StoredTask.mk "b" TaskStatus.notStarted 1) true true).2
        = IngestResponse.conflict ∧
      countOngoing (postIngest [StoredTask.mk "a" TaskStatus.ongoing 0]
          (StoredTask.mk "b" TaskStatus.notStarted 1) true true).1
        = countOngoing [StoredTask.mk "a" TaskStatus.ongoing 0]) ∧
    countOngoing (postIngest [StoredTask.mk "a" TaskStatus.ongoing 0]
        (StoredTask.mk "b" TaskStatus.notStarted 1) true true).1 ≤ 1 ∧
    ((postIngest [StoredTask.mk "a" TaskStatus.ongoing 0]
        (StoredTask.mk "b" TaskStatus.notStarted 1) true true).2
        = IngestResponse.accepted ↔
      hasTaskWithStatus [StoredTask.mk "a" TaskStatus.ongoing 0]
        TaskStatus.ongoing = false ∧
      (∃ t, getNextSyncTask (scheduleSyncTask [StoredTask.mk "a" TaskStatus.ongoing 0]
          (StoredTask.mk "b" TaskStatus.notStarted 1) true) = some t) ∧
      true = true) ∧
    (hasTaskWithStatus [StoredTask.mk "a" TaskStatus.ongoing 0]
        TaskStatus.ongoing = false ∧
      getNextSyncTask (scheduleSyncTask [StoredTask.mk "a" TaskStatus.ongoing 0]
        (StoredTask.mk "b" TaskStatus.notStarted 1) true) = none →
      (postIngest [StoredTask.mk "a" TaskStatus.ongoing 0]
          (StoredTask.mk "b" TaskStatus.notStarted 1) true true).2
        = IngestResponse.okNoTask)) :=
  ⟨by decide, by decide,
    ingest_single_flight [StoredTask.mk "a" TaskStatus.ongoing 0]
      (StoredTask.mk "b" TaskStatus.notStarted 1) true true (by decide) (by decide)⟩

/-! ## Download-failure callback of the consumption pipelines (C6)

`DeltaFile.consume` registers `request(url).on('error', function(err) {...})`;
inside that plain (non-arrow) function, `this` is the request stream, not the
`DeltaFile`, and the handler calls `onFinishCallback(this, false)` with no
error argument. `DumpFile.ingest` has the same handler shape but calls
`onFinishCallback(this, false, e)`, passing the error. On a download error the
write stream never fires `finish`, so the ingest (parse/apply) step is not
started. -/

/-- First argument of a completion-callback invocation: the file object
(`this` of the surrounding method) or the download request stream (`this`
inside the plain-function `error` handler). -/
inductive CallbackArg
  | descriptor (id : String)
  | downloadStream
deriving DecidableEq

/-- One invocation of the `onFinishCallback` completion callback: its first
argument, its success flag, and its optional error argument. -/
structure CallbackCall where
  arg : CallbackArg
  success : Bool
  error : Option String
deriving DecidableEq

/-- One `DeltaFile.consume` run: the download either fails with a transport
error or succeeds, in which case the write stream's `finish` handler runs
`ingest`, whose callback invocations are supplied as `ingestCalls`. The second
component tells whether the ingest (parse/apply) step was started. -/
def deltaConsume (f : DeltaFile) (download : Except String Unit)
    (ingestCalls : List CallbackCall) : List CallbackCall × Bool :=
  match download with
  | Except.error _ =>
      ([{ arg := CallbackArg.downloadStream, success := false, error := none }], false)
  | Except.ok _ => (ingestCalls, true)

/-- A `DumpFile` descriptor (`lib/dump-file.js`): only the id is kept. -/
structure DumpFile where
  id : String
deriving DecidableEq

/-- One `DumpFile.ingest` run, analogous to `deltaConsume`; its `error`
handler does pass the error `e` as third callback argument. -/
def dumpIngest (g : DumpFile) (download : Except String Unit)
    (ingestCalls : List CallbackCall) : List CallbackCall × Bool :=
  match download with
  | Except.error e =>
      ([{ arg := CallbackArg.downloadStream, success := false, error := some e }], false)
  | Except.ok _ => (ingestCalls, true)

/-- C6 counterexample: on a transport failure, `DeltaFile.consume` invokes the
callback once as `onFinishCallback(this, false)` — first argument the download
stream (the `this` of the plain-function error handler), success `false`, and
no error argument — which is not the claimed
`onComplete(descriptor, false, DownloadError)`. -/
theorem download_failure_callback_counterexample :
    deltaConsume (DeltaFile.mk "f1" 0 "f1.json") (Except.error "socket hang up") []
      = ([CallbackCall.mk CallbackArg.downloadStream false none], false) ∧
    CallbackCall.mk CallbackArg.downloadStream false none
      ≠ CallbackCall.mk (CallbackArg.descriptor "f1") false (some "socket hang up") := by
  exact ⟨rfl, by decide⟩

/-- C6 amended: on a transport failure neither pipeline attempts the ingest
(parse/apply) step and each invokes its callback exactly once with success
`false`; the delta pipeline passes no error argument while the dump pipeline
passes the download error, and in both the first argument is the download
request stream rather than the file descriptor. -/
theorem download_failure_callback (f : DeltaFile) (g : DumpFile) (e : String)
    (ic1 ic2 : List CallbackCall) :
    deltaConsume f (Except.error e) ic1
      = ([CallbackCall.mk CallbackArg.downloadStream false none], false) ∧
    dumpIngest g (Except.error e) ic2
      = ([CallbackCall.mk CallbackArg.downloadStream false (some e)], false) :=
  ⟨rfl, rfl⟩

/-! ## Initial sync without a dump descriptor (C7)

`runInitialSync` (app.js): schedule an initial-sync job (status busy) and its
task (status scheduled), then resolve the current dump via
`getLatestDumpFile`, which throws when the producer publishes no dataset; the
`catch` block then runs `task.closeWithFailure(e)` — persisting task status
failed and appending an ErrorRecord — and `job.closeWithFailure()`, and
returns null. -/

/-- Job/task statuses of the jobs model (`config.js` `STATUS_*`). -/
inductive JobStatus
  | busy
  | scheduled
  | success
  | failed
deriving DecidableEq

/-- Observable persisted steps of `runInitialSync`: job status writes, task
status writes, and appended ErrorRecords. -/
inductive InitEvent
  | jobStatus (s : JobStatus)
  | taskStatus (s : JobStatus)
  | errorRecord (msg : String)
deriving DecidableEq

/-- `getLatestDumpFile`: resolve the producer's current dataset; when none is
published the function throws. -/
def getLatestDumpFile (dataset : Option DumpFile) : Except String DumpFile :=
  match dataset with
  | some d => Except.ok d
  | none => Except.error "No dataset was found at the producing endpoint."

/-- `runInitialSync`: job scheduled busy, task scheduled, then dump
resolution; on success the rest of the try block runs (`okBranch`: its events
and whether a job is returned), on failure the catch closes task (status
failed plus ErrorRecord) and job (status failed) and returns null (`false`). -/
def runInitialSync (dataset : Option DumpFile)
    (okBranch : List InitEvent × Bool) : List InitEvent × Bool :=
  match getLatestDumpFile dataset with
  | Except.ok _ =>
      ([InitEvent.jobStatus JobStatus.busy, InitEvent.taskStatus JobStatus.scheduled]
        ++ okBranch.1, okBranch.2)
  | Except.error e =>
      ([InitEvent.jobStatus JobStatus.busy, InitEvent.taskStatus JobStatus.scheduled,
        InitEvent.taskStatus JobStatus.failed, InitEvent.errorRecord e,
        InitEvent.jobStatus JobStatus.failed], false)

/-- C7: an initial sync run when the producer publishes no dump descriptor
persists task status failed and appends an ErrorRecord, returns no job, and
never reaches a success status for the task or the job — the no-dump case is
treated as a failure, not as a successful nothing-to-do. -/
theorem initial_sync_no_dump_fails (okBranch : List InitEvent × Bool) :
    runInitialSync none okBranch
      = ([InitEvent.jobStatus JobStatus.busy, InitEvent.taskStatus JobStatus.scheduled,
          InitEvent.taskStatus JobStatus.failed,
          InitEvent.errorRecord "No dataset was found at the producing endpoint.",
          InitEvent.jobStatus JobStatus.failed], false) ∧
    InitEvent.taskStatus JobStatus.failed ∈ (runInitialSync none okBranch).1 ∧
    (∃ msg, InitEvent.errorRecord msg ∈ (runInitialSync none okBranch).1) ∧
    InitEvent.taskStatus JobStatus.success ∉ (runInitialSync none okBranch).1 ∧
    InitEvent.jobStatus JobStatus.success ∉ (runInitialSync none okBranch).1 := by
  refine ⟨rfl, by simp [runInitialSync, getLatestDumpFile],
    ⟨"No dataset was found at the producing endpoint.",
      by simp [runInitialSync, getLatestDumpFile]⟩, ?_, ?_⟩ <;>
    simp [runInitialSync, getLatestDumpFile]

/-! ## Callback discipline of `DeltaFile.ingest` (C10)

The success path of `DeltaFile.ingest` is
`await onFinishCallback(this, true); await fs.unlink(this.tmpFilepath)` inside
the `try`; the `catch` runs `await onFinishCallback(this, false)`. So when the
success-callback itself throws, the same callback is invoked a second time
with `false` and the scratch file is not removed. -/

/-- Observable steps of one `DeltaFile.ingest` run: a callback invocation
with its success flag, or the removal of the scratch file. -/
inductive IngestEvent
  | callbackCall (success : Bool)
  | unlinkTmp
deriving DecidableEq

/-- One `DeltaFile.ingest` run: `applyOk` tells whether parsing and applying
every changeset succeeded; `cbThrows s` tells whether the invocation of
`onFinishCallback` with success flag `s` throws. `fs.unlink` is assumed not to
throw. -/
def deltaIngestEvents (applyOk : Bool) (cbThrows : Bool → Bool) : List IngestEvent :=
  if applyOk then
    if cbThrows true then
      [IngestEvent.callbackCall true, IngestEvent.callbackCall false]
    else
      [IngestEvent.callbackCall true, IngestEvent.unlinkTmp]
  else
    [IngestEvent.callbackCall false]

/-- C10: on a fully successful ingest the callback is invoked with `true`
before the scratch file is removed; when that callback invocation throws, the
catch branch invokes the same callback again with `false`, the scratch file is
not removed, and the callback runs twice — it is not guaranteed to be invoked
exactly once per file. -/
theorem ingest_callback_not_exactly_once :
    deltaIngestEvents true (fun _ => false)
      = [IngestEvent.callbackCall true, IngestEvent.unlinkTmp] ∧
    deltaIngestEvents true (fun _ => true)
      = [IngestEvent.callbackCall true, IngestEvent.callbackCall false] ∧
    IngestEvent.unlinkTmp ∉ deltaIngestEvents true (fun _ => true) ∧
    (deltaIngestEvents true (fun _ => true)).countP
        (fun e => match e with
          | IngestEvent.callbackCall _ => true
          | IngestEvent.unlinkTmp => false) = 2 := by
  refine ⟨rfl, rfl, by decide, rfl⟩

end MandatenConsumer
